import Mathlib

/-!
Shallow embedding of the ai-image-detector repository.

The embedding covers the server route handler (request validation, the
OpenRouter / xAI provider chain, score normalization, label mapping, the
deterministic fallback heuristic, and the extractJsonObject repair helper)
and the client upload widget (file intake validation).  JavaScript strings
are modelled as Lean `String` (lists of characters), JavaScript numbers as
`ℚ` extended with a non-finite marker, and the external provider calls as
an oracle supplying the outcome of each attempt.
-/

/-! ### JavaScript primitives -/

/-- Model of the result of JavaScript `Number(...)` coercion: either a finite
numeric value (JS floats are a subset of the rationals) or a non-finite value
(NaN or an infinity), which `Number.isFinite` rejects. -/
inductive JsNum where
  | fin (q : ℚ)
  | nonfinite
deriving DecidableEq

/-- Model of JS `Math.round`: floor of x + 1/2 (JS rounds half toward +∞). -/
def jsRound (q : ℚ) : ℤ := ⌊q + 1 / 2⌋

/-- Model of JS `String.prototype.slice(0, n)`: the first n characters. -/
def jsSlice (s : String) (n : Nat) : String := String.mk (s.data.take n)

/-- Model of JS `String.prototype.startsWith`. -/
def jsStartsWith (s pre : String) : Bool := pre.data.isPrefixOf s.data

/-- Whitespace test used to model the regex class backslash-s and JS trim. -/
def isWsChar (c : Char) : Bool := c.isWhitespace

/-- Model of JS `String.prototype.trim` on character lists: drop leading and
trailing whitespace. -/
def trimChars (cs : List Char) : List Char :=
  ((cs.dropWhile isWsChar).reverse.dropWhile isWsChar).reverse

/-- Model of JS `String.prototype.trim`. -/
def jsTrim (s : String) : String := String.mk (trimChars s.data)

/-- Splitting a character list at every occurrence of a separator character;
models JS `String.prototype.split` with a one-character separator. -/
def splitChars (sep : Char) : List Char → List (List Char)
  | [] => [[]]
  | c :: rest =>
    if c == sep then [] :: splitChars sep rest
    else
      match splitChars sep rest with
      | [] => [[c]]
      | g :: gs => (c :: g) :: gs

/-- Model of JS `s.split(",")`. -/
def jsSplitComma (s : String) : List String := (splitChars ',' s.data).map String.mk

/-! ### Characters used by extractJsonObject (route.ts lines 8-40) -/

/-- The backtick character (code 96). -/
def backtickChar : Char := Char.ofNat 96

/-- The opening curly brace character (code 123). -/
def lbraceChar : Char := Char.ofNat 123

/-- The closing curly brace character (code 125). -/
def rbraceChar : Char := Char.ofNat 125

/-- The closing square bracket character. -/
def rbracketChar : Char := ']'

/-- The comma character. -/
def commaChar : Char := ','

/-- Case-insensitive prefix test on character lists (models a regex literal
under the i flag: both sides compared through toLower). -/
def ciMatch : List Char → List Char → Bool
  | [], _ => true
  | _ :: _, [] => false
  | p :: ps, c :: cs => (p.toLower == c.toLower) && ciMatch ps cs

/-- Index of the leftmost position at which `pat` is a case-insensitive
prefix of the remaining text, if any: the position of the leftmost regex
match of the literal `pat`. -/
def findIdxCI (pat : List Char) : List Char → Option Nat
  | [] => if ciMatch pat [] then some 0 else none
  | c :: rest =>
    if ciMatch pat (c :: rest) then some 0
    else (findIdxCI pat rest).map (· + 1)

/-- Three backticks: a code fence delimiter. -/
def fenceChars : List Char := [backtickChar, backtickChar, backtickChar]

/-- The opening tag of a json code fence: three backticks then the letters
j s o n (matched case-insensitively). -/
def jsonTagChars : List Char := fenceChars ++ ['j', 's', 'o', 'n']

/-- Captured group of the leftmost lazy regex match of
tag-then-anything-then-three-backticks: find the leftmost occurrence of the
opening tag, then the earliest closing fence after it; the group is the text
between them.  Returns none when the pattern does not match. -/
def fencedGroup (tag : List Char) (cs : List Char) : Option (List Char) :=
  match findIdxCI tag cs with
  | none => none
  | some i =>
    match findIdxCI fenceChars (cs.drop (i + tag.length)) with
    | none => none
    | some j => some ((cs.drop (i + tag.length)).take j)

/-- Largest index at which character `c` occurs, if any; models JS
`String.prototype.lastIndexOf` with a one-character needle. -/
def lastIdxOf (c : Char) : List Char → Option Nat
  | [] => none
  | x :: rest =>
    match lastIdxOf c rest with
    | some j => some (j + 1)
    | none => if x == c then some 0 else none

/-- Does this character close a JSON object or array. -/
def isCloserChar (c : Char) : Bool := c == rbraceChar || c == rbracketChar

/-- Right-to-left pass implementing the global regex replace that drops a
comma exactly when it is followed by optional whitespace and then a closing
brace or bracket.  The input is the reversed text; `pending` records whether
the already-emitted suffix begins with optional whitespace followed by a
closer. -/
def stripTrailingCommasRev : List Char → Bool → List Char
  | [], _ => []
  | c :: rest, pending =>
    if isCloserChar c then c :: stripTrailingCommasRev rest true
    else if isWsChar c then c :: stripTrailingCommasRev rest pending
    else if c == commaChar && pending then stripTrailingCommasRev rest false
    else c :: stripTrailingCommasRev rest false

/-- Model of `candidate.replace(/,(\s*[}\]])/g, "$1")`: every comma followed
by optional whitespace and a closing brace or bracket is removed (the
whitespace and closer are kept).  A comma is removed exactly when the text
after it starts with whitespace-then-closer, which the right-to-left pass
computes. -/
def stripTrailingCommas (cs : List Char) : List Char :=
  (stripTrailingCommasRev cs.reverse false).reverse

/-- The third candidate of extractJsonObject: the slice from the first
opening brace to the last closing brace (when the latter is strictly after
the former), trimmed, with trailing commas removed. -/
def braceCandidate (cs : List Char) : Option (List Char) :=
  match findIdxCI [lbraceChar] cs, lastIdxOf rbraceChar cs with
  | some fb, some lb =>
    if fb < lb then some (stripTrailingCommas (trimChars ((cs.drop fb).take (lb + 1 - fb))))
    else none
  | some _, none => none
  | none, _ => none

/-! ### extractJsonObject (route.ts lines 8-40)

JSON.parse is a platform builtin, modelled as a parameter
`parse : String → Option α` where `none` stands for a thrown SyntaxError. -/

/-- Stage three of extractJsonObject: the first-brace-to-last-brace fallback.
A parse failure here propagates to the enclosing catch, which returns null. -/
def extractBraces {α : Type} (parse : String → Option α) (text : String) : Option α :=
  match braceCandidate text.data with
  | some cand => parse (String.mk cand)
  | none => none

/-- Stage two of extractJsonObject: any fenced block.  The parse of its
content is wrapped in an inner try, so a failure falls through to the brace
stage. -/
def extractAfterJsonFence {α : Type} (parse : String → Option α) (text : String) : Option α :=
  match fencedGroup fenceChars text.data with
  | some g =>
    if g ≠ [] then
      match parse (String.mk (trimChars g)) with
      | some v => some v
      | none => extractBraces parse text
    else extractBraces parse text
  | none => extractBraces parse text

/-- Model of extractJsonObject (route.ts lines 8-40).  Empty input returns
null.  A json fence with a non-empty captured group is parsed directly with
no inner try, so a parse failure there is caught by the enclosing catch and
yields null without trying the later candidates. -/
def extractJsonObject {α : Type} (parse : String → Option α) (text : String) : Option α :=
  if text = "" then none
  else
    match fencedGroup jsonTagChars text.data with
    | some g =>
      if g ≠ [] then parse (String.mk (trimChars g))
      else extractAfterJsonFence parse text
    | none => extractAfterJsonFence parse text

/-! ### Claim-side reading of extractJsonObject (C6) -/

/-- Trimmed content of a fenced block whose captured group is non-empty
(the truthiness test the source applies to the regex group). -/
def fenceContent (tag : List Char) (cs : List Char) : Option (List Char) :=
  match fencedGroup tag cs with
  | some g => if g ≠ [] then some (trimChars g) else none
  | none => none

/-- The candidate list in the order the claim states: json fence content,
any fence content, brace slice. -/
def specCandidates (cs : List Char) : List (List Char) :=
  (fenceContent jsonTagChars cs).toList ++ (fenceContent fenceChars cs).toList
    ++ (braceCandidate cs).toList

/-- First candidate that parses, following the wording of the claim. -/
def firstParse {α : Type} (parse : String → Option α) : List (List Char) → Option α
  | [] => none
  | c :: rest =>
    match parse (String.mk c) with
    | some v => some v
    | none => firstParse parse rest

/-- The reading of extractJsonObject stated by the claim: try the candidates in order
and return the first that parses; null on empty input or when none parses. -/
def specExtract {α : Type} (parse : String → Option α) (text : String) : Option α :=
  if text = "" then none else firstParse parse (specCandidates text.data)

/-- Candidate list with a committing flag: the json fence and the brace
slice are parsed with no inner try, so their parse failure commits the
function to null. -/
def specCandidatesAmended (cs : List Char) : List (Bool × List Char) :=
  ((fenceContent jsonTagChars cs).toList.map fun c => (true, c))
    ++ ((fenceContent fenceChars cs).toList.map fun c => (false, c))
    ++ ((braceCandidate cs).toList.map fun c => (true, c))

/-- Run the candidates in order; a failing committing candidate stops the
search with null, a failing non-committing one falls through. -/
def firstParseCommit {α : Type} (parse : String → Option α) : List (Bool × List Char) → Option α
  | [] => none
  | (commit, c) :: rest =>
    match parse (String.mk c) with
    | some v => some v
    | none => if commit then none else firstParseCommit parse rest

/-- The amended reading of extractJsonObject. -/
def specExtractAmended {α : Type} (parse : String → Option α) (text : String) : Option α :=
  if text = "" then none else firstParseCommit parse (specCandidatesAmended text.data)

/-! ### Label mapping and score normalization (route.ts) -/

/-- The three-way label mapping, repeated verbatim at route.ts lines 149-152,
202-205, 264-267 and 288-291. -/
def labelFor (score : ℤ) : String :=
  if score < 45 then "Human-Captured"
  else if score ≤ 55 then "Uncertain"
  else "AI-Generated"

/-- Replace a non-finite raw score by 50, as the isFinite guard does. -/
def toFiniteScore : JsNum → ℚ
  | .fin q => q
  | .nonfinite => 50

/-- Score normalization of the generateObject branches (route.ts lines
143-146 and 259-261): non-finite raw scores become 50, then the value is
clamped to 0..100 and rounded. -/
def normalizeScore (raw : JsNum) : ℤ :=
  jsRound (max 0 (min 100 (toFiniteScore raw)))

/-- Score normalization of the text-parse branch (route.ts lines 197-199):
the schema-validated score is clamped and rounded with no finiteness guard
(the zod schema only accepts finite numbers). -/
def normalizeScoreText (q : ℚ) : ℤ :=
  jsRound (max 0 (min 100 q))

/-- Model of `String(x.reason || "No reason provided")`: a missing or empty
reason string falls back to the default. -/
def jsStringOr (o : Option String) (d : String) : String :=
  match o with
  | none => d
  | some s => if s = "" then d else s

/-! ### Provider outcomes -/

/-- Raw object produced by a successful generateObject call, as the code
reads it defensively: the score after Number coercion, and the reason field
when present. -/
structure RawObj where
  score : JsNum
  reason : Option String

/-- Data that passed `schema.safeParse` in the text-parse branch: the zod
schema `z.object` with score a number in 0..100 (after optional string
coercion) and reason a string of 3..200 characters. -/
structure ZodData where
  score : ℚ
  reason : String
  score_nonneg : 0 ≤ score
  score_le : score ≤ 100
  reason_min : 3 ≤ reason.length
  reason_max : reason.length ≤ 200

/-- A successful JSON response of the endpoint. -/
structure ApiResponse where
  score : ℤ
  label : String
  reason : String
  provider : String
deriving DecidableEq

/-- Response built by the OpenRouter generateObject branch (route.ts lines
143-159). -/
def objResponse (modelName : String) (raw : RawObj) : ApiResponse :=
  { score := normalizeScore raw.score
    label := labelFor (normalizeScore raw.score)
    reason := jsSlice (jsStringOr raw.reason "No reason provided") 200
    provider := "openrouter:" ++ modelName }

/-- Response built by the OpenRouter text-parse branch (route.ts lines
197-212). -/
def textResponse (modelName : String) (d : ZodData) : ApiResponse :=
  { score := normalizeScoreText d.score
    label := labelFor (normalizeScoreText d.score)
    reason := jsSlice d.reason 200
    provider := "openrouter:" ++ modelName }

/-- Response built by the xAI grok-4 branch (route.ts lines 259-274). -/
def xaiResponse (raw : RawObj) : ApiResponse :=
  { score := normalizeScore raw.score
    label := labelFor (normalizeScore raw.score)
    reason := jsSlice (jsStringOr raw.reason "No reason provided") 200
    provider := "grok-4" }

/-! ### Fallback heuristic (route.ts lines 280-305) -/

/-- One step of the rolling hash: `hash = (hash * 31 + view[i]) >>> 0`. -/
def hashStep (h byte : ℕ) : ℕ := (h * 31 + byte) % 2 ^ 32

/-- The sampling loop `for (let i = 0; i < view.length; i += step)`. -/
def hashLoop (b : List ℕ) (step : ℕ) (hs : 0 < step) (i h : ℕ) : ℕ :=
  if hlt : i < b.length then hashLoop b step hs (i + step) (hashStep h (b.getD i 0))
  else h
termination_by b.length - i
decreasing_by omega

/-- The fallback rolling hash over sampled bytes, with
`step = Math.max(1, Math.floor(view.length / 1024))`. -/
def fallbackHash (b : List ℕ) : ℕ :=
  hashLoop b (max 1 (b.length / 1024)) (Nat.lt_of_lt_of_le Nat.zero_lt_one (Nat.le_max_left 1 _)) 0 0

/-- The fixed eight-entry reason table of the fallback heuristic. -/
def fallbackReasons : List String :=
  [ "Texture regularity suggests model synthesis."
  , "Natural sensor noise patterns detected."
  , "EXIF fields appear atypical for camera devices."
  , "Frequency components hint at generative priors."
  , "Compression artifacts align with human-captured photos."
  , "Watermark-like traces near edges."
  , "Noise signature resembles demosaicing from real sensors."
  , "Classifier confidence near boundary threshold."
  ]

/-- The fallback response (route.ts lines 280-305): score is the hash mod
101, the label comes from the shared mapping, the reason is the table entry
at hash mod table length, and the provider is the string fallback. -/
def fallbackResponse (b : List ℕ) : ApiResponse :=
  { score := ((fallbackHash b % 101 : ℕ) : ℤ)
    label := labelFor ((fallbackHash b % 101 : ℕ) : ℤ)
    reason := fallbackReasons.getD (fallbackHash b % fallbackReasons.length) ""
    provider := "fallback" }

/-! ### The provider chain (route.ts lines 82-305) -/

/-- Truthiness of the relevant environment variables. -/
structure Env where
  openRouterKey : Bool
  openRouterModel : Option String
  xaiKey : Bool

/-- Outcomes of the external provider calls: for the candidate at a given
position in the model list, the generateObject attempt and the
text-plus-extraction attempt (none means the attempt threw or failed
validation), and the single xAI generateObject attempt. -/
structure Oracle where
  objAttempt : ℕ → Option RawObj
  textAttempt : ℕ → Option ZodData
  xaiAttempt : Option RawObj

/-- The OpenRouter default model sequence (route.ts lines 99-103). -/
def defaultModels : List String :=
  ["openai/gpt-4o", "google/gemini-1.5-pro", "anthropic/claude-3.5-sonnet"]

/-- The candidate model list (route.ts lines 94-104): a truthy
OPENROUTER_MODEL is split on commas, entries trimmed, empty entries dropped;
otherwise the default sequence. -/
def candidateModels (override : Option String) : List String :=
  match override with
  | some s =>
    if s = "" then defaultModels
    else ((jsSplitComma s).map jsTrim).filter (fun t => t ≠ "")
  | none => defaultModels

/-- The for-loop over candidates (route.ts lines 112-218): per model, first
the generateObject attempt, then the text-parse attempt; the first success
returns, a double failure moves to the next candidate. -/
def runCandidates (o : Oracle) : List String → ℕ → Option ApiResponse
  | [], _ => none
  | m :: rest, idx =>
    match o.objAttempt idx with
    | some raw => some (objResponse m raw)
    | none =>
      match o.textAttempt idx with
      | some d => some (textResponse m d)
      | none => runCandidates o rest (idx + 1)

/-- The provider chain after request validation: the OpenRouter branch when
its key is truthy, then the xAI branch when its key is truthy, then the
fallback heuristic. -/
def detectCore (env : Env) (o : Oracle) (bytes : List ℕ) : ApiResponse :=
  match (if env.openRouterKey then runCandidates o (candidateModels env.openRouterModel) 0 else none) with
  | some r => r
  | none =>
    match (if env.xaiKey then o.xaiAttempt else none) with
    | some raw => xaiResponse raw
    | none => fallbackResponse bytes

/-! ### The POST handler (route.ts lines 42-309) -/

/-- An uploaded File: its MIME type, its size in bytes, and the byte content
delivered by arrayBuffer (none models an arrayBuffer call that rejects,
which the outer catch turns into a 500). -/
structure UploadFile where
  type : String
  size : ℕ
  content : Option (List ℕ)

/-- A value stored under a form field: a plain string or a File. -/
inductive FormEntry where
  | str (s : String)
  | fileE (f : UploadFile)

/-- The parsed multipart form: the image field and the file field. -/
structure ReqForm where
  image : Option FormEntry
  fileField : Option FormEntry

/-- The entry the handler uses: the image field, else the file field
(the null-coalescing at route.ts line 52). -/
def formEntry (f : ReqForm) : Option FormEntry :=
  f.image.orElse fun _ => f.fileField

/-- Result of the POST handler: an error response with a status and body,
or a successful JSON response. -/
inductive PostResult where
  | resp (status : ℕ) (body : String)
  | json (r : ApiResponse)
deriving DecidableEq

/-- The server-side size cap: 6MB (route.ts line 62). -/
def serverMaxBytes : ℕ := 6 * 1024 * 1024

/-- The POST handler (route.ts lines 42-309): request validation in order
(form parse, field presence and File-ness, MIME type, size), then reading
the bytes (a rejected read reaches the outer catch as a 500), then the
provider chain. -/
def postFile (env : Env) (o : Oracle) (file : UploadFile) : PostResult :=
  if !(jsStartsWith file.type "image/") then .resp 400 "Invalid file type"
  else if file.size > serverMaxBytes then .resp 413 "Image too large (max 6MB)"
  else
    match file.content with
    | none => .resp 500 "Server error"
    | some bytes => .json (detectCore env o bytes)

/-- The per-form checks: field presence and File-ness (a missing entry and a
plain-string entry both fail the File test), then the per-file checks. -/
def postForm (env : Env) (o : Oracle) (form : ReqForm) : PostResult :=
  match formEntry form with
  | none => .resp 400 "Missing image"
  | some (.str _) => .resp 400 "Missing image"
  | some (.fileE file) => postFile env o file

/-- The POST handler dispatch: form-parse failure, then the per-form and
per-file checks. -/
def POST (env : Env) (o : Oracle) (req : Option ReqForm) : PostResult :=
  match req with
  | none => .resp 400 "Expected multipart/form-data"
  | some form => postForm env o form

/-! ### The client widget (detector.tsx) -/

/-- A file as the widget sees it. -/
structure JsFile where
  type : String
  size : ℕ

/-- The display result of the widget (detector.tsx toDisplay). -/
structure DisplayResult where
  verdict : String
  score : ℤ
  reason : String

/-- The pieces of widget state that onFiles touches. -/
structure WidgetState where
  file : Option JsFile
  previewUrl : Option String
  error : Option String
  result : Option DisplayResult

/-- The client-side size cap: 5MB (detector.tsx line 25). -/
def maxSizeBytes : ℕ := 5 * 1024 * 1024

/-- The file intake of the widget (detector.tsx lines 102-119).  An empty list is
ignored; otherwise error and result are cleared, then a non-image type or an
oversized file sets an error message and returns; an accepted file is stored
together with a preview URL created by `createUrl` (the model of
URL.createObjectURL). -/
def onFilesFirst (createUrl : JsFile → String) (s : WidgetState) (f : JsFile) : WidgetState :=
  let s1 : WidgetState := { s with error := none, result := none }
  if !(jsStartsWith f.type "image/") then
    { s1 with error := some "Please upload a valid image file." }
  else if f.size > maxSizeBytes then
    { s1 with error := some "Image is too large. Please select a file under 5MB." }
  else
    { s1 with file := some f, previewUrl := some (createUrl f) }

/-- The file-list dispatch of onFiles: an empty list is ignored, otherwise
the first file is processed. -/
def onFiles (createUrl : JsFile → String) (s : WidgetState) : List JsFile → WidgetState
  | [] => s
  | f :: _ => onFilesFirst createUrl s f

/-! ### Claim-side definitions -/

/-- One priority-ordered OpenRouter attempt: for the model at a given list
position, the generateObject outcome, else the text-parse outcome. -/
def attStep (o : Oracle) (p : ℕ × String) : Option ApiResponse :=
  match o.objAttempt p.1 with
  | some raw => some (objResponse p.2 raw)
  | none => (o.textAttempt p.1).map (textResponse p.2)

/-- All successful attempt responses in priority order: the OpenRouter
candidates in list order (when that provider is configured), then the xAI
attempt (when configured). -/
def attemptResponses (env : Env) (o : Oracle) : List ApiResponse :=
  (if env.openRouterKey then (candidateModels env.openRouterModel).enum.filterMap (attStep o)
   else [])
    ++ (if env.xaiKey then (o.xaiAttempt.map xaiResponse).toList else [])

/-- Number of sampled indices: the count of multiples of `step` below `n`. -/
def sampleCount (n step : ℕ) : ℕ := (n + step - 1) / step

/-- The sampled indices 0, step, 2*step, ... below n. -/
def sampleIndices (n step : ℕ) : List ℕ := List.range' 0 (sampleCount n step) step

/-- A widget state with nothing selected. -/
def emptyWidgetState : WidgetState :=
  { file := none, previewUrl := none, error := none, result := none }

/-- A concrete stand-in for JSON.parse used by the C6 counterexample; it
agrees with JSON.parse on every candidate string that the counterexample
text produces (the object literal parses, the other candidates throw). -/
def jsonParseStub : String → Option ℕ := fun s =>
  if s = "\x7b\"a\":1\x7d" then some 1 else none

/-- Counterexample input for C6: a json fence whose content does not parse,
followed by a brace-delimited object that does. -/
def counterText : String := "```json x``` \x7b\"a\":1\x7d"

/-! ### Helper lemmas -/

theorem labelFor_mem (s : ℤ) :
    labelFor s = "AI-Generated" ∨ labelFor s = "Human-Captured" ∨ labelFor s = "Uncertain" := by
  unfold labelFor
  split_ifs
  · exact Or.inr (Or.inl rfl)
  · exact Or.inr (Or.inr rfl)
  · exact Or.inl rfl

theorem labelFor_eq_human_iff (s : ℤ) : labelFor s = "Human-Captured" ↔ s < 45 := by
  unfold labelFor
  split_ifs with h1 h2
  · exact iff_of_true rfl h1
  · exact iff_of_false (by decide) h1
  · exact iff_of_false (by decide) h1

theorem labelFor_eq_uncertain_iff (s : ℤ) : labelFor s = "Uncertain" ↔ 45 ≤ s ∧ s ≤ 55 := by
  unfold labelFor
  split_ifs with h1 h2
  · exact iff_of_false (by decide) (by omega)
  · exact iff_of_true rfl (by omega)
  · exact iff_of_false (by decide) (by omega)

theorem labelFor_eq_ai_iff (s : ℤ) : labelFor s = "AI-Generated" ↔ 55 < s := by
  unfold labelFor
  split_ifs with h1 h2
  · exact iff_of_false (by decide) (by omega)
  · exact iff_of_false (by decide) (by omega)
  · exact iff_of_true rfl (by omega)

theorem jsRound_nonneg (q : ℚ) (h : 0 ≤ q) : 0 ≤ jsRound q := by
  unfold jsRound
  exact Int.floor_nonneg.mpr (by linarith)

theorem jsRound_le_100 (q : ℚ) (h : q ≤ 100) : jsRound q ≤ 100 := by
  unfold jsRound
  have h1 : ⌊q + 1 / 2⌋ ≤ ⌊(100 : ℚ) + 1 / 2⌋ := Int.floor_le_floor (by linarith)
  have h2 : ⌊(100 : ℚ) + 1 / 2⌋ = 100 := by
    rw [Int.floor_eq_iff]
    norm_num
  omega

theorem clamp_nonneg (q : ℚ) : 0 ≤ max 0 (min 100 q) := le_max_left 0 _

theorem clamp_le_100 (q : ℚ) : max 0 (min 100 q) ≤ 100 :=
  max_le (by norm_num) (min_le_left 100 q)

theorem normalizeScore_nonneg (raw : JsNum) : 0 ≤ normalizeScore raw :=
  jsRound_nonneg _ (clamp_nonneg _)

theorem normalizeScore_le_100 (raw : JsNum) : normalizeScore raw ≤ 100 :=
  jsRound_le_100 _ (clamp_le_100 _)

theorem jsSlice_length_le (s : String) (n : ℕ) : (jsSlice s n).length ≤ n := by
  show (s.data.take n).length ≤ n
  rw [List.length_take]
  exact min_le_left n _

theorem openrouter_provider_ne_fallback (m : String) : "openrouter:" ++ m ≠ "fallback" := by
  intro h
  have hd : ("openrouter:" ++ m).data = "fallback".data := by rw [h]
  cases m with
  | mk l =>
    have : "openrouter:".data ++ l = "fallback".data := hd
    have hl := congrArg List.length this
    simp [List.length_append] at hl

theorem getD_mem_or_default {α : Type} (l : List α) (i : ℕ) (d : α) :
    l.getD i d ∈ l ∨ l.getD i d = d := by
  induction l generalizing i with
  | nil => exact Or.inr rfl
  | cons a l ih =>
    cases i with
    | zero => exact Or.inl (List.mem_cons_self a l)
    | succ j =>
      rcases ih j with h | h
      · exact Or.inl (List.mem_cons_of_mem a h)
      · exact Or.inr h

theorem fallbackReasons_getD_length_le (i : ℕ) :
    (fallbackReasons.getD i "").length ≤ 200 := by
  rcases getD_mem_or_default fallbackReasons i "" with h | h
  · have hall : ∀ r ∈ fallbackReasons, r.length ≤ 200 := by decide
    exact hall _ h
  · rw [h]
    decide

theorem runCandidates_prop (o : Oracle) (P : ApiResponse → Prop)
    (hobj : ∀ m raw, P (objResponse m raw))
    (htext : ∀ m d, P (textResponse m d)) :
    ∀ (ms : List String) (idx : ℕ) (r : ApiResponse),
      runCandidates o ms idx = some r → P r := by
  intro ms
  induction ms with
  | nil => intro idx r h; simp [runCandidates] at h
  | cons m rest ih =>
    intro idx r h
    unfold runCandidates at h
    cases ho : o.objAttempt idx with
    | some raw =>
      rw [ho] at h
      injection h with h
      rw [← h]; exact hobj m raw
    | none =>
      rw [ho] at h
      cases ht : o.textAttempt idx with
      | some d =>
        rw [ht] at h
        injection h with h
        rw [← h]; exact htext m d
      | none =>
        rw [ht] at h
        exact ih (idx + 1) r h

theorem detectCore_prop (env : Env) (o : Oracle) (bytes : List ℕ) (P : ApiResponse → Prop)
    (hobj : ∀ m raw, P (objResponse m raw))
    (htext : ∀ m d, P (textResponse m d))
    (hxai : ∀ raw, P (xaiResponse raw))
    (hfb : P (fallbackResponse bytes)) :
    P (detectCore env o bytes) := by
  unfold detectCore
  split
  case _ r heq =>
    have hr : runCandidates o (candidateModels env.openRouterModel) 0 = some r := by
      by_cases hk : env.openRouterKey = true
      · rwa [if_pos hk] at heq
      · rw [if_neg hk] at heq; cases heq
    exact runCandidates_prop o P hobj htext _ 0 r hr
  case _ heq =>
    split
    case _ raw heq2 => exact hxai raw
    case _ heq2 => exact hfb

theorem runCandidates_none_iff (o : Oracle) :
    ∀ (ms : List String) (idx : ℕ),
      runCandidates o ms idx = none ↔
        ∀ k, k < ms.length → o.objAttempt (idx + k) = none ∧ o.textAttempt (idx + k) = none := by
  intro ms
  induction ms with
  | nil =>
    intro idx
    simp [runCandidates]
  | cons m rest ih =>
    intro idx
    unfold runCandidates
    cases ho : o.objAttempt idx with
    | some raw =>
      constructor
      · intro h; cases h
      · intro h
        have h0 := (h 0 (by simp)).1
        rw [Nat.add_zero] at h0
        rw [ho] at h0
        cases h0
    | none =>
      cases ht : o.textAttempt idx with
      | some d =>
        constructor
        · intro h; cases h
        · intro h
          have h0 := (h 0 (by simp)).2
          rw [Nat.add_zero] at h0
          rw [ht] at h0
          cases h0
      | none =>
        rw [ih (idx + 1)]
        constructor
        · intro h k hk
          cases k with
          | zero => rw [Nat.add_zero]; exact ⟨ho, ht⟩
          | succ j =>
            have := h j (by simpa using Nat.lt_of_succ_lt_succ hk)
            have harg : idx + 1 + j = idx + (j + 1) := by omega
            rwa [harg] at this
        · intro h k hk
          have := h (k + 1) (by simpa using Nat.succ_lt_succ hk)
          have harg : idx + (k + 1) = idx + 1 + k := by omega
          rwa [harg] at this

theorem runCandidates_eq_head (o : Oracle) :
    ∀ (ms : List String) (idx : ℕ),
      runCandidates o ms idx = ((ms.enumFrom idx).filterMap (attStep o)).head? := by
  intro ms
  induction ms with
  | nil => intro idx; rfl
  | cons m rest ih =>
    intro idx
    show runCandidates o (m :: rest) idx
      = (((idx, m) :: rest.enumFrom (idx + 1)).filterMap (attStep o)).head?
    rw [List.filterMap_cons]
    unfold runCandidates
    cases ho : o.objAttempt idx with
    | some raw =>
      have ha : attStep o (idx, m) = some (objResponse m raw) := by
        unfold attStep; rw [ho]
      rw [ha]
      rfl
    | none =>
      cases ht : o.textAttempt idx with
      | some d =>
        have ha : attStep o (idx, m) = some (textResponse m d) := by
          unfold attStep; rw [ho, ht]; rfl
        rw [ha]
        rfl
      | none =>
        have ha : attStep o (idx, m) = none := by
          unfold attStep; rw [ho, ht]; rfl
        rw [ha]
        exact ih (idx + 1)

theorem sampleCount_zero (step : ℕ) (hs : 0 < step) : sampleCount 0 step = 0 := by
  unfold sampleCount
  exact Nat.div_eq_of_lt (by omega)

theorem sampleCount_pos_eq (x step : ℕ) (hs : 0 < step) (hx : 0 < x) :
    sampleCount x step = sampleCount (x - step) step + 1 := by
  unfold sampleCount
  have h1 : x + step - 1 = (x - 1) + step := by omega
  rw [h1, Nat.add_div_right _ hs]
  rcases le_or_lt step x with hcase | hcase
  · have h2 : (x - step) + step - 1 = (x - 1) := by omega
    rw [h2]
  · have hx0 : x - step = 0 := by omega
    rw [hx0]
    have h3 : (x - 1) / step = 0 := Nat.div_eq_of_lt (by omega)
    have h4 : (0 + step - 1) / step = 0 := Nat.div_eq_of_lt (by omega)
    rw [h3, h4]

theorem hashLoop_eq_foldl (b : List ℕ) (step : ℕ) (hs : 0 < step) (i h : ℕ) :
    hashLoop b step hs i h =
      (List.range' i (sampleCount (b.length - i) step) step).foldl
        (fun acc j => hashStep acc (b.getD j 0)) h := by
  rw [hashLoop]
  split
  case isTrue hlt =>
    rw [hashLoop_eq_foldl b step hs (i + step) (hashStep h (b.getD i 0))]
    have hc : sampleCount (b.length - i) step = sampleCount (b.length - (i + step)) step + 1 := by
      have he := sampleCount_pos_eq (b.length - i) step hs (by omega)
      have harg : b.length - i - step = b.length - (i + step) := by omega
      rw [harg] at he
      exact he
    rw [hc]
    rfl
  case isFalse hge =>
    have h0 : b.length - i = 0 := by omega
    rw [h0, sampleCount_zero step hs]
    rfl
termination_by b.length - i
decreasing_by omega

theorem lt_sampleCount_iff (n step i : ℕ) (hs : 0 < step) :
    i < sampleCount n step ↔ step * i < n := by
  unfold sampleCount
  rw [Nat.lt_iff_add_one_le, Nat.le_div_iff_mul_le hs]
  have h1 : (i + 1) * step = step * i + step := by ring
  rw [h1]
  omega

theorem mem_sampleIndices_iff (n step j : ℕ) (hs : 0 < step) :
    j ∈ sampleIndices n step ↔ step ∣ j ∧ j < n := by
  unfold sampleIndices
  rw [List.mem_range']
  constructor
  · rintro ⟨i, hi, hj⟩
    rw [Nat.zero_add] at hj
    subst hj
    exact ⟨Dvd.intro i rfl, (lt_sampleCount_iff n step i hs).mp hi⟩
  · rintro ⟨⟨i, hji⟩, hjn⟩
    subst hji
    exact ⟨i, (lt_sampleCount_iff n step i hs).mpr hjn, (Nat.zero_add _).symm⟩

/-! ### Claim theorems -/

/-- C1: the fallback heuristic computes step = max(1, floor(n/1024)), folds
h to (h*31 + b[i]) mod 2^32 over the sampled indices 0, step, 2*step, ...
below n starting from 0, scores hash mod 101 (an integer in 0..100), and
takes the reason at index hash mod 8 of the fixed eight-entry table; the
result is a pure function of the bytes. -/
theorem C1_fallback_heuristic (b : List ℕ) :
    (fallbackResponse b).score = ((fallbackHash b % 101 : ℕ) : ℤ)
  ∧ fallbackHash b =
      (sampleIndices b.length (max 1 (b.length / 1024))).foldl
        (fun h i => (h * 31 + b.getD i 0) % 2 ^ 32) 0
  ∧ (∀ j, j ∈ sampleIndices b.length (max 1 (b.length / 1024)) ↔
        (max 1 (b.length / 1024)) ∣ j ∧ j < b.length)
  ∧ 0 ≤ (fallbackResponse b).score ∧ (fallbackResponse b).score ≤ 100
  ∧ fallbackReasons.length = 8
  ∧ (fallbackResponse b).reason = fallbackReasons.getD (fallbackHash b % 8) ""
  ∧ (∀ b2, b = b2 → fallbackResponse b = fallbackResponse b2) := by
  have hstep : 0 < max 1 (b.length / 1024) :=
    Nat.lt_of_lt_of_le Nat.zero_lt_one (Nat.le_max_left 1 _)
  refine ⟨rfl, ?_, ?_, ?_, ?_, rfl, rfl, ?_⟩
  · have hfold := hashLoop_eq_foldl b (max 1 (b.length / 1024)) hstep 0 0
    rw [Nat.sub_zero] at hfold
    exact hfold
  · exact fun j => mem_sampleIndices_iff b.length _ j hstep
  · exact Int.natCast_nonneg _
  · have hm : fallbackHash b % 101 < 101 := Nat.mod_lt _ (by norm_num)
    show ((fallbackHash b % 101 : ℕ) : ℤ) ≤ 100
    omega
  · intro b2 h
    rw [h]

/-- Witness for C1 at a concrete byte list. -/
theorem C1_fallback_heuristic_witness :
    0 ≤ (fallbackResponse [7, 3, 9]).score ∧ fallbackResponse [7, 3, 9] = fallbackResponse [7, 3, 9] :=
  ⟨(C1_fallback_heuristic [7, 3, 9]).2.2.2.1,
   (C1_fallback_heuristic [7, 3, 9]).2.2.2.2.2.2.2 [7, 3, 9] rfl⟩

/-- C3: the normalizer returns round(min(100, max(0, rawScore))), with a
non-finite raw score replaced by 50 before clamping, and the result is an
integer in 0..100; the normalizer of the text-parse branch agrees on every finite
value (its inputs are schema-validated finite numbers). -/
theorem C3_score_normalizer (raw : JsNum) :
    normalizeScore raw = jsRound (min 100 (max 0 (toFiniteScore raw)))
  ∧ toFiniteScore JsNum.nonfinite = 50
  ∧ (∀ q : ℚ, toFiniteScore (JsNum.fin q) = q)
  ∧ 0 ≤ normalizeScore raw ∧ normalizeScore raw ≤ 100
  ∧ (∀ q : ℚ, normalizeScoreText q = normalizeScore (JsNum.fin q)) := by
  refine ⟨?_, rfl, fun q => rfl, normalizeScore_nonneg raw, normalizeScore_le_100 raw, fun q => rfl⟩
  show jsRound (max 0 (min 100 (toFiniteScore raw))) = jsRound (min 100 (max 0 (toFiniteScore raw)))
  rw [max_min_distrib_left, max_eq_right (by norm_num : (0 : ℚ) ≤ 100)]

/-- C4: on every response path the label is exactly one of the three strings
determined by the score: Human-Captured iff score < 45, Uncertain iff
45 <= score <= 55, AI-Generated iff score > 55. -/
theorem C4_label_mapping (s : ℤ) (env : Env) (o : Oracle) (b : List ℕ) :
    ((labelFor s = "Human-Captured") ↔ s < 45)
  ∧ ((labelFor s = "Uncertain") ↔ (45 ≤ s ∧ s ≤ 55))
  ∧ ((labelFor s = "AI-Generated") ↔ 55 < s)
  ∧ (detectCore env o b).label = labelFor (detectCore env o b).score :=
  ⟨labelFor_eq_human_iff s, labelFor_eq_uncertain_iff s, labelFor_eq_ai_iff s,
   detectCore_prop env o b (fun r => r.label = labelFor r.score)
     (fun _ _ => rfl) (fun _ _ => rfl) (fun _ => rfl) rfl⟩

/-- C7: the widget accepts a file exactly when its MIME type starts with
image/ and its size is at most 5MB; a rejected file sets an error message
and leaves the selected file and preview URL unchanged; an accepted file is
stored with a preview URL while error and result are cleared. -/
theorem C7_onFiles_validation (createUrl : JsFile → String) (s : WidgetState)
    (f : JsFile) (rest : List JsFile) :
    (jsStartsWith f.type "image/" = true → f.size ≤ maxSizeBytes →
      onFiles createUrl s (f :: rest) =
        { file := some f, previewUrl := some (createUrl f), error := none, result := none })
  ∧ (jsStartsWith f.type "image/" = false →
      onFiles createUrl s (f :: rest) =
        { s with error := some "Please upload a valid image file.", result := none })
  ∧ (jsStartsWith f.type "image/" = true → maxSizeBytes < f.size →
      onFiles createUrl s (f :: rest) =
        { s with error := some "Image is too large. Please select a file under 5MB.", result := none }) := by
  refine ⟨?_, ?_, ?_⟩
  · intro h1 h2
    show onFilesFirst createUrl s f = _
    unfold onFilesFirst
    rw [h1]
    simp only [Bool.not_true, Bool.false_eq_true, if_false]
    rw [if_neg (by omega)]
  · intro h1
    show onFilesFirst createUrl s f = _
    unfold onFilesFirst
    rw [h1]
    rfl
  · intro h1 h2
    show onFilesFirst createUrl s f = _
    unfold onFilesFirst
    rw [h1]
    simp only [Bool.not_true, Bool.false_eq_true, if_false]
    rw [if_pos (by omega)]

/-- Witness for C7 at a concrete accepted file. -/
theorem C7_onFiles_validation_witness :
    onFiles (fun _ => "blob:preview") emptyWidgetState [{ type := "image/png", size := 4 }] =
      { file := some { type := "image/png", size := 4 }, previewUrl := some "blob:preview",
        error := none, result := none } :=
  (C7_onFiles_validation (fun _ => "blob:preview") emptyWidgetState { type := "image/png", size := 4 } []).1
    (by decide) (by decide)

theorem runCandidates_eq_head0 (o : Oracle) (ms : List String) :
    runCandidates o ms 0 = (ms.enum.filterMap (attStep o)).head? :=
  runCandidates_eq_head o ms 0

theorem detectCore_eq_headD (env : Env) (o : Oracle) (b : List ℕ) :
    detectCore env o b = (attemptResponses env o).headD (fallbackResponse b) := by
  unfold detectCore attemptResponses
  cases heq : (if env.openRouterKey then runCandidates o (candidateModels env.openRouterModel) 0 else none) with
  | some r =>
    have hk : env.openRouterKey = true := by
      by_cases hk : env.openRouterKey = true
      · exact hk
      · rw [if_neg hk] at heq; cases heq
    have hrc : runCandidates o (candidateModels env.openRouterModel) 0 = some r := by
      rwa [if_pos hk] at heq
    rw [runCandidates_eq_head0] at hrc
    rw [if_pos hk]
    cases hL : (candidateModels env.openRouterModel).enum.filterMap (attStep o) with
    | nil => rw [hL] at hrc; cases hrc
    | cons r2 L2 =>
      rw [hL] at hrc
      injection hrc with hr
      rw [hr]
      rfl
  | none =>
    have hA : (if env.openRouterKey then
        (candidateModels env.openRouterModel).enum.filterMap (attStep o) else []) = [] := by
      by_cases hk : env.openRouterKey = true
      · rw [if_pos hk]
        have hrc : runCandidates o (candidateModels env.openRouterModel) 0 = none := by
          rwa [if_pos hk] at heq
        rw [runCandidates_eq_head0] at hrc
        cases hL : (candidateModels env.openRouterModel).enum.filterMap (attStep o) with
        | nil => rfl
        | cons r2 L2 => rw [hL] at hrc; cases hrc
      · rw [if_neg hk]
    rw [hA, List.nil_append]
    cases heq2 : (if env.xaiKey then o.xaiAttempt else none) with
    | some raw =>
      have hx : env.xaiKey = true := by
        by_cases hx : env.xaiKey = true
        · exact hx
        · rw [if_neg hx] at heq2; cases heq2
      have ha : o.xaiAttempt = some raw := by rwa [if_pos hx] at heq2
      rw [if_pos hx, ha]
      rfl
    | none =>
      by_cases hx : env.xaiKey = true
      · have ha : o.xaiAttempt = none := by rwa [if_pos hx] at heq2
        rw [if_pos hx, ha]
        rfl
      · rw [if_neg hx]
        rfl

theorem detectCore_fallback_iff (env : Env) (o : Oracle) (b : List ℕ) :
    ((detectCore env o b).provider = "fallback" ↔
      ((env.openRouterKey = true → runCandidates o (candidateModels env.openRouterModel) 0 = none)
        ∧ (env.xaiKey = true → o.xaiAttempt = none)))
  ∧ ((detectCore env o b).provider = "fallback" → detectCore env o b = fallbackResponse b) := by
  have hRCprop : ∀ r, runCandidates o (candidateModels env.openRouterModel) 0 = some r →
      r.provider ≠ "fallback" := fun r h =>
    runCandidates_prop o (fun r => r.provider ≠ "fallback")
      (fun m _ => openrouter_provider_ne_fallback m)
      (fun m _ => openrouter_provider_ne_fallback m) _ 0 r h
  unfold detectCore
  cases heq : (if env.openRouterKey then runCandidates o (candidateModels env.openRouterModel) 0 else none) with
  | some r =>
    have hk : env.openRouterKey = true := by
      by_cases hk : env.openRouterKey = true
      · exact hk
      · rw [if_neg hk] at heq; cases heq
    have hrc : runCandidates o (candidateModels env.openRouterModel) 0 = some r := by
      rwa [if_pos hk] at heq
    have hne := hRCprop r hrc
    constructor
    · apply iff_of_false hne
      rintro ⟨hA, _⟩
      rw [hA hk] at hrc
      cases hrc
    · intro h; exact absurd h hne
  | none =>
    have hA : env.openRouterKey = true → runCandidates o (candidateModels env.openRouterModel) 0 = none := by
      intro hk; rwa [if_pos hk] at heq
    cases heq2 : (if env.xaiKey then o.xaiAttempt else none) with
    | some raw =>
      have hx : env.xaiKey = true := by
        by_cases hx : env.xaiKey = true
        · exact hx
        · rw [if_neg hx] at heq2; cases heq2
      have ha : o.xaiAttempt = some raw := by rwa [if_pos hx] at heq2
      constructor
      · apply iff_of_false (show ¬("grok-4" = "fallback") by decide)
        rintro ⟨_, hB⟩
        rw [hB hx] at ha
        cases ha
      · intro h; exact absurd h (show ¬("grok-4" = "fallback") by decide)
    | none =>
      have hB : env.xaiKey = true → o.xaiAttempt = none := by
        intro hx; rwa [if_pos hx] at heq2
      exact ⟨iff_of_true rfl ⟨hA, hB⟩, fun _ => rfl⟩

/-- C2: the response carries provider fallback exactly when no external
provider is configured or every configured attempt failed; moreover a
fallback-provider response equals the response of the fallback heuristic. -/
theorem C2_fallback_only_on_failure (env : Env) (o : Oracle) (b : List ℕ) :
    ((detectCore env o b).provider = "fallback" ↔
      ((env.openRouterKey = false ∨
          ∀ k, k < (candidateModels env.openRouterModel).length →
            o.objAttempt k = none ∧ o.textAttempt k = none)
        ∧ (env.xaiKey = false ∨ o.xaiAttempt = none)))
  ∧ ((detectCore env o b).provider = "fallback" → detectCore env o b = fallbackResponse b) := by
  obtain ⟨hiff, himp⟩ := detectCore_fallback_iff env o b
  refine ⟨?_, himp⟩
  rw [hiff]
  apply and_congr
  · constructor
    · intro h
      cases hk : env.openRouterKey with
      | false => exact Or.inl rfl
      | true =>
        refine Or.inr ?_
        have hrc := h hk
        rw [runCandidates_none_iff] at hrc
        intro k hk2
        have hres := hrc k hk2
        rwa [Nat.zero_add] at hres
    · intro h hk
      cases h with
      | inl h0 => rw [hk] at h0; cases h0
      | inr hall =>
        rw [runCandidates_none_iff]
        intro k hk2
        rw [Nat.zero_add]
        exact hall k hk2
  · constructor
    · intro h
      cases hx : env.xaiKey with
      | false => exact Or.inl rfl
      | true => exact Or.inr (h hx)
    · intro h hx
      cases h with
      | inl h0 => rw [hx] at h0; cases h0
      | inr ha => exact ha

/-- Witness for C2: with no provider configured the response is the
response of the fallback heuristic. -/
theorem C2_fallback_only_on_failure_witness :
    detectCore ⟨false, none, false⟩ ⟨fun _ => none, fun _ => none, none⟩ [] =
      fallbackResponse [] :=
  (C2_fallback_only_on_failure ⟨false, none, false⟩ ⟨fun _ => none, fun _ => none, none⟩ []).2 rfl

/-- C5: providers are tried in the fixed priority order (the OpenRouter
candidate list, from the comma-separated OPENROUTER_MODEL override trimmed
and with empties dropped, else the static default sequence, then xAI
grok-4); the endpoint returns the first success, whose provider field names
that model. -/
theorem C5_provider_priority (env : Env) (o : Oracle) (b : List ℕ) :
    detectCore env o b = (attemptResponses env o).headD (fallbackResponse b)
  ∧ candidateModels none = ["openai/gpt-4o", "google/gemini-1.5-pro", "anthropic/claude-3.5-sonnet"]
  ∧ (∀ s2 : String, s2 ≠ "" →
      candidateModels (some s2) = ((jsSplitComma s2).map jsTrim).filter (fun t => t ≠ ""))
  ∧ (∀ m raw, (objResponse m raw).provider = "openrouter:" ++ m)
  ∧ (∀ m d, (textResponse m d).provider = "openrouter:" ++ m)
  ∧ (∀ raw, (xaiResponse raw).provider = "grok-4") := by
  refine ⟨detectCore_eq_headD env o b, rfl, ?_, fun _ _ => rfl, fun _ _ => rfl, fun _ => rfl⟩
  intro s2 hs2
  show (if s2 = "" then defaultModels
    else ((jsSplitComma s2).map jsTrim).filter (fun t => t ≠ "")) = _
  rw [if_neg hs2]

/-- Witness for C5: a concrete override parses to its trimmed non-empty
entries. -/
theorem C5_provider_priority_witness :
    candidateModels (some "a, b,") = ["a", "b"] := by
  have h := (C5_provider_priority ⟨false, none, false⟩
    ⟨fun _ => none, fun _ => none, none⟩ []).2.2.1 "a, b," (by decide)
  rw [h]
  decide

/-- C10: every successful JSON response has an integer score in 0..100, one
of the three labels, and a reason of at most 200 characters; every fallback
reason is shorter than 200 characters. -/
theorem C10_response_invariant (env : Env) (o : Oracle) (b : List ℕ) :
    0 ≤ (detectCore env o b).score ∧ (detectCore env o b).score ≤ 100
  ∧ ((detectCore env o b).label = "AI-Generated" ∨ (detectCore env o b).label = "Human-Captured"
      ∨ (detectCore env o b).label = "Uncertain")
  ∧ (detectCore env o b).reason.length ≤ 200
  ∧ (∀ r ∈ fallbackReasons, r.length < 200) := by
  have hfb : 0 ≤ (fallbackResponse b).score ∧ (fallbackResponse b).score ≤ 100 ∧
      ((fallbackResponse b).label = "AI-Generated" ∨ (fallbackResponse b).label = "Human-Captured"
        ∨ (fallbackResponse b).label = "Uncertain") ∧
      (fallbackResponse b).reason.length ≤ 200 := by
    refine ⟨Int.natCast_nonneg _, ?_, labelFor_mem _, fallbackReasons_getD_length_le _⟩
    have hm : fallbackHash b % 101 < 101 := Nat.mod_lt _ (by norm_num)
    show ((fallbackHash b % 101 : ℕ) : ℤ) ≤ 100
    omega
  have hmain := detectCore_prop env o b
    (fun r => 0 ≤ r.score ∧ r.score ≤ 100 ∧
      (r.label = "AI-Generated" ∨ r.label = "Human-Captured" ∨ r.label = "Uncertain") ∧
      r.reason.length ≤ 200)
    (fun m raw =>
      ⟨normalizeScore_nonneg _, normalizeScore_le_100 _, labelFor_mem _, jsSlice_length_le _ 200⟩)
    (fun m d =>
      ⟨jsRound_nonneg _ (clamp_nonneg _), jsRound_le_100 _ (clamp_le_100 _), labelFor_mem _,
       jsSlice_length_le _ 200⟩)
    (fun raw =>
      ⟨normalizeScore_nonneg _, normalizeScore_le_100 _, labelFor_mem _, jsSlice_length_le _ 200⟩)
    hfb
  exact ⟨hmain.1, hmain.2.1, hmain.2.2.1, hmain.2.2.2, by decide⟩

/-- Witness for C10 at a concrete request and a concrete table entry. -/
theorem C10_response_invariant_witness :
    0 ≤ (detectCore ⟨false, none, false⟩ ⟨fun _ => none, fun _ => none, none⟩ [5]).score ∧
    ("Watermark-like traces near edges." : String).length < 200 :=
  ⟨(C10_response_invariant ⟨false, none, false⟩ ⟨fun _ => none, fun _ => none, none⟩ [5]).1,
   (C10_response_invariant ⟨false, none, false⟩ ⟨fun _ => none, fun _ => none, none⟩ [5]).2.2.2.2
     "Watermark-like traces near edges." (by decide)⟩

/-- C8: the POST handler rejects bad requests with the stated statuses
before contacting any provider or computing the fallback (each equation
holds for every environment and every oracle, so the outcome does not
depend on any provider call); a read failure after validation reaches the
outer catch as a 500. -/
theorem C8_request_validation (env : Env) (o : Oracle) :
    POST env o none = .resp 400 "Expected multipart/form-data"
  ∧ (∀ form, formEntry form = none → POST env o (some form) = .resp 400 "Missing image")
  ∧ (∀ form s2, formEntry form = some (.str s2) → POST env o (some form) = .resp 400 "Missing image")
  ∧ (∀ form f, formEntry form = some (.fileE f) → jsStartsWith f.type "image/" = false →
      POST env o (some form) = .resp 400 "Invalid file type")
  ∧ (∀ form f, formEntry form = some (.fileE f) → jsStartsWith f.type "image/" = true →
      serverMaxBytes < f.size → POST env o (some form) = .resp 413 "Image too large (max 6MB)")
  ∧ (∀ form f, formEntry form = some (.fileE f) → jsStartsWith f.type "image/" = true →
      f.size ≤ serverMaxBytes → f.content = none →
      POST env o (some form) = .resp 500 "Server error") := by
  refine ⟨rfl, ?_, ?_, ?_, ?_, ?_⟩
  · intro form hentry
    show postForm env o form = _
    unfold postForm
    rw [hentry]
  · intro form s2 hentry
    show postForm env o form = _
    unfold postForm
    rw [hentry]
  · intro form f hentry h1
    show postForm env o form = _
    unfold postForm
    rw [hentry]
    show postFile env o f = _
    unfold postFile
    rw [h1]
    rfl
  · intro form f hentry h1 h2
    show postForm env o form = _
    unfold postForm
    rw [hentry]
    show postFile env o f = _
    unfold postFile
    rw [h1]
    show (if f.size > serverMaxBytes then PostResult.resp 413 "Image too large (max 6MB)"
      else match f.content with
        | none => PostResult.resp 500 "Server error"
        | some bytes => PostResult.json (detectCore env o bytes)) = _
    rw [if_pos h2]
  · intro form f hentry h1 h2 h3
    show postForm env o form = _
    unfold postForm
    rw [hentry]
    show postFile env o f = _
    unfold postFile
    rw [h1]
    show (if f.size > serverMaxBytes then PostResult.resp 413 "Image too large (max 6MB)"
      else match f.content with
        | none => PostResult.resp 500 "Server error"
        | some bytes => PostResult.json (detectCore env o bytes)) = _
    rw [if_neg (by omega), h3]

/-- Witness for C8: an oversized upload is rejected with 413. -/
theorem C8_request_validation_witness :
    POST ⟨false, none, false⟩ ⟨fun _ => none, fun _ => none, none⟩
      (some ⟨some (.fileE ⟨"image/png", 7000000, none⟩), none⟩) =
      .resp 413 "Image too large (max 6MB)" :=
  (C8_request_validation ⟨false, none, false⟩ ⟨fun _ => none, fun _ => none, none⟩).2.2.2.2.1
    ⟨some (.fileE ⟨"image/png", 7000000, none⟩), none⟩ ⟨"image/png", 7000000, none⟩
    rfl (by decide) (by decide)

/-- C9: the client size limit (5MB) is strictly below the server limit
(6MB): a file accepted by the widget also passes the server size guard, so
the 413 branch is unreachable for widget submissions. -/
theorem C9_client_limit_stricter (env : Env) (o : Oracle) (createUrl : JsFile → String)
    (f : JsFile) (rest : List JsFile) (bytes : Option (List ℕ)) :
    (onFiles createUrl emptyWidgetState (f :: rest)).file = some f →
    f.size ≤ serverMaxBytes ∧
    POST env o (some ⟨some (.fileE ⟨f.type, f.size, bytes⟩), none⟩) ≠
      .resp 413 "Image too large (max 6MB)" := by
  intro h
  have h2 : (onFilesFirst createUrl emptyWidgetState f).file = some f := h
  unfold onFilesFirst at h2
  split_ifs at h2 with hc1 hc2
  · cases h2
  · cases h2
  · have hstart : jsStartsWith f.type "image/" = true := by
      cases hb : jsStartsWith f.type "image/" with
      | true => rfl
      | false => rw [hb] at hc1; exact absurd rfl hc1
    have hsize : f.size ≤ maxSizeBytes := by omega
    have hsrv : f.size ≤ serverMaxBytes := by
      have e1 : maxSizeBytes = 5 * 1024 * 1024 := rfl
      have e2 : serverMaxBytes = 6 * 1024 * 1024 := rfl
      omega
    refine ⟨hsrv, ?_⟩
    show postFile env o ⟨f.type, f.size, bytes⟩ ≠ _
    unfold postFile
    rw [hstart]
    show (if (⟨f.type, f.size, bytes⟩ : UploadFile).size > serverMaxBytes
        then PostResult.resp 413 "Image too large (max 6MB)"
        else match (⟨f.type, f.size, bytes⟩ : UploadFile).content with
          | none => PostResult.resp 500 "Server error"
          | some bs => PostResult.json (detectCore env o bs)) ≠ _
    rw [if_neg (by simpa using Nat.not_lt.mpr hsrv)]
    cases bytes with
    | none =>
      intro heq
      injection heq with hs hb
      cases hs
    | some bs =>
      intro heq
      cases heq

/-- Witness for C9 at a concrete accepted file. -/
theorem C9_client_limit_stricter_witness :
    (4 : ℕ) ≤ serverMaxBytes ∧
    POST ⟨false, none, false⟩ ⟨fun _ => none, fun _ => none, none⟩
      (some ⟨some (.fileE ⟨"image/png", 4, none⟩), none⟩) ≠
      .resp 413 "Image too large (max 6MB)" :=
  C9_client_limit_stricter ⟨false, none, false⟩ ⟨fun _ => none, fun _ => none, none⟩
    (fun _ => "blob:u") ⟨"image/png", 4⟩ [] none rfl

theorem extractBraces_eq_commit (α : Type) (parse : String → Option α) (text : String) :
    extractBraces parse text =
      firstParseCommit parse ((braceCandidate text.data).toList.map fun c => (true, c)) := by
  unfold extractBraces
  cases h3 : braceCandidate text.data with
  | some cand =>
    cases hp : parse (String.mk cand) with
    | some v => simp [firstParseCommit, hp]
    | none => simp [firstParseCommit, hp]
  | none => rfl

theorem extractAfterJsonFence_eq_commit (α : Type) (parse : String → Option α) (text : String) :
    extractAfterJsonFence parse text =
      firstParseCommit parse
        (((fenceContent fenceChars text.data).toList.map fun c => (false, c))
          ++ ((braceCandidate text.data).toList.map fun c => (true, c))) := by
  cases h2 : fencedGroup fenceChars text.data with
  | some g =>
    have hg' : fenceContent fenceChars text.data =
        if g ≠ [] then some (trimChars g) else none := by
      unfold fenceContent; rw [h2]
    have hshow : extractAfterJsonFence parse text =
        (if g ≠ [] then
          match parse (String.mk (trimChars g)) with
          | some v => some v
          | none => extractBraces parse text
        else extractBraces parse text) := by
      unfold extractAfterJsonFence; rw [h2]
    rw [hshow]
    by_cases hg : g = []
    · rw [if_neg (not_not_intro hg)] at hg'
      rw [if_neg (not_not_intro hg), hg']
      simp only [Option.toList_none, List.map_nil, List.nil_append]
      exact extractBraces_eq_commit α parse text
    · rw [if_pos hg] at hg'
      rw [if_pos hg, hg']
      simp only [Option.toList_some, List.map_cons, List.map_nil, List.cons_append,
        List.nil_append]
      cases hp : parse (String.mk (trimChars g)) with
      | some v => simp [firstParseCommit, hp]
      | none =>
        simp only [firstParseCommit, hp]
        simp only [if_false, Bool.false_eq_true]
        exact extractBraces_eq_commit α parse text
  | none =>
    have hg' : fenceContent fenceChars text.data = none := by
      unfold fenceContent; rw [h2]
    have hshow : extractAfterJsonFence parse text = extractBraces parse text := by
      unfold extractAfterJsonFence; rw [h2]
    rw [hshow, hg']
    simp only [Option.toList_none, List.map_nil, List.nil_append]
    exact extractBraces_eq_commit α parse text

/-- C6 (amended): extractJsonObject tries the json fence, then any fence,
then the brace slice, but the json-fence and brace candidates are
committing: when such a candidate exists and fails to parse, the function
returns null without trying later candidates; only the generic-fence
candidate falls through on parse failure. -/
theorem C6_extract_repair_amended (α : Type) (parse : String → Option α) (text : String) :
    extractJsonObject parse text = specExtractAmended parse text := by
  unfold specExtractAmended specCandidatesAmended
  by_cases ht : text = ""
  · unfold extractJsonObject
    rw [if_pos ht, if_pos ht]
  · rw [if_neg ht]
    cases h1 : fencedGroup jsonTagChars text.data with
    | some g =>
      have hg' : fenceContent jsonTagChars text.data =
          if g ≠ [] then some (trimChars g) else none := by
        unfold fenceContent; rw [h1]
      have hshow : extractJsonObject parse text =
          (if g ≠ [] then parse (String.mk (trimChars g))
           else extractAfterJsonFence parse text) := by
        unfold extractJsonObject; rw [if_neg ht, h1]
      rw [hshow]
      by_cases hg : g = []
      · rw [if_neg (not_not_intro hg)] at hg'
        rw [if_neg (not_not_intro hg), hg']
        simp only [Option.toList_none, List.map_nil, List.nil_append]
        exact extractAfterJsonFence_eq_commit α parse text
      · rw [if_pos hg] at hg'
        rw [if_pos hg, hg']
        simp only [Option.toList_some, List.map_cons, List.map_nil, List.cons_append,
          List.nil_append]
        cases hp : parse (String.mk (trimChars g)) with
        | some v => simp [firstParseCommit, hp]
        | none => simp [firstParseCommit, hp]
    | none =>
      have hg' : fenceContent jsonTagChars text.data = none := by
        unfold fenceContent; rw [h1]
      have hshow : extractJsonObject parse text = extractAfterJsonFence parse text := by
        unfold extractJsonObject; rw [if_neg ht, h1]
      rw [hshow, hg']
      simp only [Option.toList_none, List.map_nil, List.nil_append]
      exact extractAfterJsonFence_eq_commit α parse text

/-- C6 counterexample: on a json fence whose content does not parse followed
by a brace-delimited object that does, the code returns null while the
try-each-candidate-in-order reading of the claim returns the parsed object. -/
theorem C6_extract_repair_counterexample :
    extractJsonObject jsonParseStub counterText ≠ specExtract jsonParseStub counterText := by
  decide

/-- Witness for C3 at a concrete finite raw score. -/
theorem C3_score_normalizer_witness :
    normalizeScore (JsNum.fin 30) = jsRound (min 100 (max 0 (toFiniteScore (JsNum.fin 30)))) ∧
    0 ≤ normalizeScore (JsNum.fin 30) :=
  ⟨(C3_score_normalizer (JsNum.fin 30)).1, (C3_score_normalizer (JsNum.fin 30)).2.2.2.1⟩

/-- Witness for C4 at a concrete score. -/
theorem C4_label_mapping_witness :
    (labelFor 30 = "Human-Captured") ↔ (30 : ℤ) < 45 :=
  (C4_label_mapping 30 ⟨false, none, false⟩ ⟨fun _ => none, fun _ => none, none⟩ []).1

/-- Witness for the amended C6 at the concrete counterexample input. -/
theorem C6_extract_repair_amended_witness :
    extractJsonObject jsonParseStub counterText = specExtractAmended jsonParseStub counterText :=
  C6_extract_repair_amended ℕ jsonParseStub counterText
